import Mathlib

/-!
Shallow embedding of `scripts/generate_burndown.py` (sprint burndown chart
generator): the Sprint/Task data model, the YAML-record constructor
`parse_sprint_yaml`, the two burndown-series algorithms
`calculate_ideal_burndown` / `calculate_actual_burndown`, and the chart
geometry pieces of `generate_svg_chart` (scales, point coordinates, y-axis
ticks, path truncation by "today").

Modelling conventions:
* Python `datetime` values parsed with format `"%Y-%m-%d"` are midnight
  dates; we embed them as a `Date` record (year/month/day) with day-number
  arithmetic (`dateToOrd` / `ordToDate`, the standard civil-calendar
  conversion), so `(end - start).days` becomes `dateToOrd end - dateToOrd
  start` and `start + timedelta(days=d)` becomes `addDays start d`.
* Python ints are `ℤ` (arbitrary precision, no overflow), Python `/` (true
  division) is exact division in `ℚ`.  Where every double involved is
  exactly representable (the worked example's burndown values, whose
  denominators are powers of two), plain `ℚ` models the floats exactly.
  Where IEEE rounding matters — the chart y-coordinates, whose divisions
  are generally inexact — the round-to-nearest-even step of each float
  operation is modelled explicitly by `fl`, giving the rounded semantics
  `y_scale_f`/`pointY_f`; the exact-valued `pointX`/`pointY` are used only
  where coordinate values are opaque (the path-structure statements).
* Python `round(x, 1)` (round to one decimal, ties to even) is `pyRound1`.
* Python `//` (floor division, always by a positive divisor here) is `ℤ`
  division (`Int.ediv`, which agrees with floor division for positive
  divisors) or `ℕ` division.
* Python f-string rendering of numbers inside SVG path strings is
  abstracted by `toString` on `ℚ`; no theorem depends on digit rendering.
-/

namespace Burndown

/-! ### Dates (embedding of `datetime` restricted to `%Y-%m-%d` use) -/

/-- A calendar date as held by a Python `datetime` at midnight. -/
structure Date where
  year : ℕ
  month : ℕ
  day : ℕ
deriving DecidableEq

/-- Gregorian leap-year test (as in Python's `calendar`/`datetime`). -/
def isLeap (y : ℕ) : Bool :=
  y % 4 == 0 && (y % 100 != 0 || y % 400 == 0)

/-- Number of days in a month (used by the `strptime` model to validate). -/
def daysInMonth (y m : ℕ) : ℕ :=
  if m = 2 then (if isLeap y then 29 else 28)
  else if m = 4 ∨ m = 6 ∨ m = 9 ∨ m = 11 then 30
  else 31

/-- Day number of a date (days since 0000-03-01, civil-calendar algorithm).
Only differences and roundtrips matter, matching `(a - b).days` and
`a + timedelta(days=n)` on midnight datetimes. -/
def dateToOrd (dt : Date) : ℤ :=
  let y : ℕ := if dt.month ≤ 2 then dt.year - 1 else dt.year
  let era : ℕ := y / 400
  let yoe : ℕ := y - era * 400
  let mp : ℕ := if dt.month ≤ 2 then dt.month + 9 else dt.month - 3
  let doy : ℕ := (153 * mp + 2) / 5 + dt.day - 1
  let doe : ℕ := yoe * 365 + yoe / 4 - yoe / 100 + doy
  ((era * 146097 + doe : ℕ) : ℤ)

/-- Inverse of `dateToOrd` (civil-calendar algorithm). -/
def ordToDate (z : ℤ) : Date :=
  let n : ℕ := z.toNat
  let era : ℕ := n / 146097
  let doe : ℕ := n % 146097
  let yoe : ℕ := (doe - doe / 1460 + doe / 36524 - doe / 146096) / 365
  let y : ℕ := yoe + era * 400
  let doy : ℕ := doe - (365 * yoe + yoe / 4 - yoe / 100)
  let mp : ℕ := (5 * doy + 2) / 153
  let d : ℕ := doy - (153 * mp + 2) / 5 + 1
  if mp < 10 then ⟨y, mp + 3, d⟩ else ⟨y + 1, mp - 9, d⟩

/-- `dt + timedelta(days=n)` for a nonnegative day offset. -/
def addDays (dt : Date) (n : ℕ) : Date :=
  ordToDate (dateToOrd dt + n)

/-- Left-pad a number with zeros (as `strftime` does for `%Y`, `%m`, `%d`). -/
def padZ (width n : ℕ) : String :=
  let s := toString n
  if s.length < width then String.mk (List.replicate (width - s.length) '0') ++ s else s

/-- `dt.strftime("%Y-%m-%d")`. -/
def strftimeYMD (dt : Date) : String :=
  padZ 4 dt.year ++ "-" ++ padZ 2 dt.month ++ "-" ++ padZ 2 dt.day

/-- Split a character list at every occurrence of `sep` (the behavior of
splitting a string on a one-character separator). -/
def splitChar (sep : Char) : List Char → List Char → List (List Char)
  | [], acc => [acc.reverse]
  | c :: rest, acc =>
    if c = sep then acc.reverse :: splitChar sep rest []
    else splitChar sep rest (c :: acc)

/-- Parse a non-empty all-digit character list as a decimal number. -/
def digitsToNat (cs : List Char) : Option ℕ :=
  if cs ≠ [] ∧ cs.all (·.isDigit) then
    some (cs.foldl (fun n c => n * 10 + (c.toNat - 48)) 0)
  else none

/-- `datetime.strptime(s, "%Y-%m-%d")`: succeeds exactly on well-formed
calendar dates in year/month/day order separated by `-` (years within
`datetime`'s 1..9999 range), returning the date; raises (here: `none`)
otherwise.  The model differs from `strptime` at the margins of numeral
lenience (digit-count limits, non-ASCII digits); the theorems below use it
only structurally and on canonical `YYYY-MM-DD` inputs, where the two
agree. -/
def parseDate (s : String) : Option Date :=
  match splitChar '-' s.data [] with
  | [ys, ms, ds] =>
    match digitsToNat ys, digitsToNat ms, digitsToNat ds with
    | some y, some m, some d =>
      if 1 ≤ y ∧ y ≤ 9999 ∧ 1 ≤ m ∧ m ≤ 12 ∧ 1 ≤ d ∧ d ≤ daysInMonth y m then
        some ⟨y, m, d⟩
      else none
    | _, _, _ => none
  | _ => none

/-! ### Data model (`Task`, `Sprint` dataclasses) -/

/-- `Task` dataclass. -/
structure Task where
  id : String
  title : String
  status : String
  story_points : ℤ := 1
  completed_date : Option String := none
deriving DecidableEq

/-- ASCII lower-casing of one character (Python `str.lower`, restricted to
the ASCII status strings this program compares against). -/
def charLower (c : Char) : Char :=
  if 'A' ≤ c ∧ c ≤ 'Z' then Char.ofNat (c.toNat + 32) else c

/-- Python `s.lower()` on ASCII strings. -/
def strLower (s : String) : String :=
  String.mk (s.data.map charLower)

/-- `Task.is_complete`: `self.status.lower() in ("done", "complete", "completed")`. -/
def Task.is_complete (t : Task) : Bool :=
  strLower t.status = "done" ∨ strLower t.status = "complete" ∨ strLower t.status = "completed"

/-- `Sprint` dataclass. -/
structure Sprint where
  id : String
  name : String
  start_date : Date
  end_date : Date
  goals : List String := []
  tasks : List Task := []
deriving DecidableEq

/-- `Sprint.total_points`: `sum(t.story_points for t in self.tasks)`. -/
def Sprint.total_points (s : Sprint) : ℤ :=
  (s.tasks.map (·.story_points)).sum

/-- `Sprint.completed_points`: sum of weights of complete tasks. -/
def Sprint.completed_points (s : Sprint) : ℤ :=
  ((s.tasks.filter (·.is_complete)).map (·.story_points)).sum

/-- `Sprint.remaining_points`. -/
def Sprint.remaining_points (s : Sprint) : ℤ :=
  s.total_points - s.completed_points

/-- `Sprint.duration_days`: `(self.end_date - self.start_date).days`. -/
def Sprint.duration_days (s : Sprint) : ℤ :=
  dateToOrd s.end_date - dateToOrd s.start_date

/-- `Sprint.progress_percent`: guarded division. -/
def Sprint.progress_percent (s : Sprint) : ℚ :=
  if s.total_points = 0 then 0
  else ((s.completed_points : ℚ) / (s.total_points : ℚ)) * 100

/-! ### `parse_sprint_yaml` (constructing a Sprint from a parsed record) -/

/-- One entry of the YAML `tasks:` list after YAML parsing and `.get`
defaulting (`status` defaults to `"pending"`, `story_points` to `1`,
`completed_date` to absent). -/
structure TaskData where
  id : String := ""
  title : String := ""
  status : String := "pending"
  story_points : ℤ := 1
  completed_date : Option String := none
deriving DecidableEq

/-- The parsed YAML mapping for a sprint file (after `yaml.safe_load` and
`.get` defaulting). -/
structure SprintData where
  id : String
  name : String := "Unknown Sprint"
  start_date : String
  end_date : String
  goals : List String := []
  tasks : List TaskData := []
deriving DecidableEq

/-- `parse_sprint_yaml` on an already-loaded record: parses the two dates
with `strptime` (raising, i.e. `Except.error`, on failure), copies every
task field verbatim, and returns the `Sprint`.  It performs no other
validation. -/
def parse_sprint_yaml (data : SprintData) : Except String Sprint :=
  match parseDate data.start_date with
  | none => .error "ValueError: start_date does not match format Y-m-d"
  | some sd =>
    match parseDate data.end_date with
    | none => .error "ValueError: end_date does not match format Y-m-d"
    | some ed =>
      .ok { id := data.id
            name := data.name
            start_date := sd
            end_date := ed
            goals := data.goals
            tasks := data.tasks.map fun td =>
              { id := td.id, title := td.title, status := td.status
                story_points := td.story_points
                completed_date := td.completed_date } }

/-! ### Python `round(x, 1)` -/

/-- Round a rational to the nearest integer, ties to the even integer
(the rounding Python's `round` applies at the chosen decimal place). -/
def rhe (q : ℚ) : ℤ :=
  if q - ⌊q⌋ < 1/2 then ⌊q⌋
  else if 1/2 < q - ⌊q⌋ then ⌊q⌋ + 1
  else if Even ⌊q⌋ then ⌊q⌋ else ⌊q⌋ + 1

/-- Python `round(q, 1)`: nearest multiple of 1/10, ties to even tenth. -/
def pyRound1 (q : ℚ) : ℚ :=
  (rhe (10 * q) : ℚ) / 10

/-! ### Burndown series -/

/-- One element of the lists built by the two calculators: the dict
`{"day": d, "date": str, "remaining": r}`. -/
structure BPoint where
  day : ℕ
  date : String
  remaining : ℚ
deriving DecidableEq

/-- `calculate_ideal_burndown`: for `day` in `range(days + 1)`, remaining is
`total - total * day / days` when `days > 0` else `0`, rounded to one
decimal. -/
def calculate_ideal_burndown (s : Sprint) : List BPoint :=
  let total := s.total_points
  let days := s.duration_days
  (List.range (days + 1).toNat).map fun day =>
    let date := addDays s.start_date day
    let remaining : ℚ := if days > 0 then (total : ℚ) - (total : ℚ) * (day : ℚ) / (days : ℚ) else 0
    { day := day, date := strftimeYMD date, remaining := pyRound1 remaining }

/-- The value `completions_by_date.get(d, 0)`: total story points of
complete tasks whose `completed_date` is the string `d`.  (The Python code
builds the dict by accumulation over the task list; the per-key sum is
exactly this, and an absent key — sum over no tasks — means no
subtraction, i.e. subtracting 0.) -/
def completionsOn (tasks : List Task) (d : String) : ℤ :=
  ((tasks.filter fun t => t.is_complete && t.completed_date == some d).map
    (·.story_points)).sum

/-- `calculate_actual_burndown`: running `remaining` starts at the total,
each day's completions are subtracted, and `max(0, remaining)` is
recorded. -/
def calculate_actual_burndown (s : Sprint) : List BPoint :=
  ((List.range (s.duration_days + 1).toNat).foldl
    (fun (acc : ℤ × List BPoint) day =>
      let date_str := strftimeYMD (addDays s.start_date day)
      let remaining := acc.1 - completionsOn s.tasks date_str
      (remaining,
       acc.2 ++ [{ day := day, date := date_str, remaining := (max 0 remaining : ℤ) }]))
    (s.total_points, [])).2

/-! ### Chart geometry (the computational pieces of `generate_svg_chart`)

`width = 600`, `height = 400`, `margin = {top: 40, right: 40, bottom: 60,
left: 60}`; `chart_width`/`chart_height` are the plot-area dimensions. -/

/-- `width` constant of `generate_svg_chart`. -/
def width : ℚ := 600

/-- `height` constant of `generate_svg_chart`. -/
def height : ℚ := 400

/-- `margin["top"]`. -/
def margin_top : ℚ := 40

/-- `margin["right"]`. -/
def margin_right : ℚ := 40

/-- `margin["bottom"]`. -/
def margin_bottom : ℚ := 60

/-- `margin["left"]`. -/
def margin_left : ℚ := 60

/-- `chart_width = width - margin["left"] - margin["right"]`. -/
def chart_width : ℚ := width - margin_left - margin_right

/-- `chart_height = height - margin["top"] - margin["bottom"]`. -/
def chart_height : ℚ := height - margin_top - margin_bottom

/-- `x_scale = chart_width / max_days if max_days > 0 else 0`. -/
def x_scale (s : Sprint) : ℚ :=
  if s.duration_days > 0 then chart_width / (s.duration_days : ℚ) else 0

/-- `y_scale = chart_height / max_points if max_points > 0 else 0`, as the
exact rational value of the expression; the program evaluates it in double
precision, whose rounded value is `y_scale_f` below. -/
def y_scale (s : Sprint) : ℚ :=
  if s.total_points > 0 then chart_height / (s.total_points : ℚ) else 0

/-- The x pixel coordinate of a plotted point:
`margin['left'] + p['day'] * x_scale`. -/
def pointX (s : Sprint) (day : ℕ) : ℚ :=
  margin_left + (day : ℚ) * x_scale s

/-- The y pixel coordinate of a plotted point,
`margin['top'] + (max_points - p['remaining']) * y_scale`, as the exact
rational value of the expression; it is used below only where coordinate
values are opaque (the path strings).  The program's double-precision
value is `pointY_f`. -/
def pointY (s : Sprint) (remaining : ℚ) : ℚ :=
  margin_top + ((s.total_points : ℚ) - remaining) * y_scale s

/-- IEEE-754 double rounding (round to nearest, ties to the even mantissa)
of an exact rational, for the normal range: the nearest multiple of
`2 ^ (e - 52)` where `2 ^ e ≤ |q| < 2 ^ (e + 1)`.  Overflow and subnormal
underflow, which the chart magnitudes never approach, are not modelled. -/
def fl (q : ℚ) : ℚ :=
  if q = 0 then 0
  else if 0 < q then
    (rhe (q * (2 : ℚ) ^ (52 - Int.log 2 q)) : ℚ) * (2 : ℚ) ^ (Int.log 2 q - 52)
  else
    -((rhe (-q * (2 : ℚ) ^ (52 - Int.log 2 (-q))) : ℚ) * (2 : ℚ) ^ (Int.log 2 (-q) - 52))

/-- `y_scale` as the program's doubles compute it: the quotient
`chart_height / max_points` is rounded once (Python `int / int` division
returns the correctly rounded double). -/
def y_scale_f (s : Sprint) : ℚ :=
  if s.total_points > 0 then fl (chart_height / (s.total_points : ℚ)) else 0

/-- The y pixel coordinate as the program's doubles compute it: each float
operation of `margin['top'] + (max_points - p['remaining']) * y_scale`
rounds its exact result (the integer operands here are far below `2^53`
and convert exactly). -/
def pointY_f (s : Sprint) (remaining : ℚ) : ℚ :=
  fl (margin_top + fl (fl ((s.total_points : ℚ) - remaining) * y_scale_f s))

/-- The `"x,y"` coordinate pair rendered for one point of a path (the
f-string `f"{...},{...}"`; digit rendering of the two exact coordinates is
abstracted by `toString`). -/
def coordStr (s : Sprint) (p : BPoint) : String :=
  toString (pointX s p.day) ++ "," ++ toString (pointY s p.remaining)

/-- `"M " + " L ".join(...)` over a list of plotted points. -/
def linePath (s : Sprint) (pts : List BPoint) : String :=
  "M " ++ " L ".intercalate (pts.map (coordStr s))

/-- `ideal_path`: the ideal polyline is built from every ideal point. -/
def ideal_path (s : Sprint) (ideal : List BPoint) : String :=
  linePath s ideal

/-- `actual_filtered = [p for p in actual if p["date"] <= today]` — the
actual series truncated to points not after the rendering moment. -/
def actual_filtered (actual : List BPoint) (today : String) : List BPoint :=
  actual.filter fun p => decide (p.date ≤ today)

/-- `actual_path`: `""`, replaced by `"M " + " L ".join(...)` over
`actual_filtered` when that list is non-empty (Python list truthiness). -/
def actual_path (s : Sprint) (actual : List BPoint) (today : String) : String :=
  let af := actual_filtered actual today
  if af.isEmpty then "" else linePath s af

/-- The SVG `<path>` element for the actual curve:
`f'<path d="{actual_path}" .../>' if actual_path else ''` (string
truthiness: emitted only when `actual_path` is non-empty). -/
def actual_path_element (s : Sprint) (actual : List BPoint) (today : String) : String :=
  let ap := actual_path s actual today
  if ap = "" then ""
  else "<path d=\"" ++ ap ++ "\" fill=\"none\" stroke=\"#4CAF50\" stroke-width=\"3\"/>"

/-- `step = max(1, max_points // 5)` for the y-axis labels and grid. -/
def ytick_step (s : Sprint) : ℤ :=
  max 1 (s.total_points / 5)

/-- Python `range(start, stop, step)` for a positive `step`:
`⌈(stop - start) / step⌉` values `start, start + step, ...` (empty when
`stop ≤ start`).  `ℤ` division is Euclidean, which agrees with Python's
floor division here because `step > 0`. -/
def pyRangeStep (start stop step : ℤ) : List ℤ :=
  (List.range ((stop - start + step - 1) / step).toNat).map fun (i : ℕ) => start + step * (i : ℤ)

/-- The tick values of the y-axis loop
`for points in range(0, max_points + 1, step)`. -/
def ytick_positions (s : Sprint) : List ℤ :=
  pyRangeStep 0 (s.total_points + 1) (ytick_step s)

/-! ### Derived forms of the two series used in proofs -/

/-- The date string recorded for day `d` of a sprint. -/
def dayStr (s : Sprint) (d : ℕ) : String :=
  strftimeYMD (addDays s.start_date d)

/-- The points completed on day `d`'s date. -/
def compAt (s : Sprint) (d : ℕ) : ℤ :=
  completionsOn s.tasks (dayStr s d)

/-- The running `remaining` variable of `calculate_actual_burndown` after
the first `k` loop iterations. -/
def remAfter (s : Sprint) (k : ℕ) : ℤ :=
  s.total_points - ((List.range k).map (compAt s)).sum

/-- The point recorded for day `d` by `calculate_actual_burndown`. -/
def actualPoint (s : Sprint) (d : ℕ) : BPoint :=
  { day := d, date := dayStr s d, remaining := ((max 0 (remAfter s (d + 1)) : ℤ) : ℚ) }

/-- The unrounded ideal remaining value at day `day`. -/
def idealRem (s : Sprint) (day : ℕ) : ℚ :=
  if s.duration_days > 0 then
    (s.total_points : ℚ) - (s.total_points : ℚ) * (day : ℚ) / (s.duration_days : ℚ)
  else 0

/-- The point recorded for day `d` by `calculate_ideal_burndown`. -/
def idealPoint (s : Sprint) (d : ℕ) : BPoint :=
  { day := d, date := dayStr s d, remaining := pyRound1 (idealRem s d) }

lemma calculate_ideal_eq (s : Sprint) :
    calculate_ideal_burndown s =
      (List.range (s.duration_days + 1).toNat).map (idealPoint s) := rfl

lemma remAfter_succ (s : Sprint) (k : ℕ) :
    remAfter s (k + 1) = remAfter s k - compAt s k := by
  simp [remAfter, List.range_succ]
  ring

lemma actual_foldl_eq (s : Sprint) (n : ℕ) (L : List BPoint) :
    (List.range n).foldl
      (fun (acc : ℤ × List BPoint) day =>
        let date_str := strftimeYMD (addDays s.start_date day)
        let remaining := acc.1 - completionsOn s.tasks date_str
        (remaining,
         acc.2 ++ [{ day := day, date := date_str, remaining := (max 0 remaining : ℤ) }]))
      (s.total_points, L)
      = (remAfter s n, L ++ (List.range n).map (actualPoint s)) := by
  induction n with
  | zero => simp [remAfter]
  | succ k ih =>
    rw [List.range_succ, List.foldl_append, ih]
    simp only [List.foldl_cons, List.foldl_nil, List.map_append, List.map_cons, List.map_nil]
    refine Prod.ext ?_ ?_
    · simpa using (remAfter_succ s k).symm
    · simp [actualPoint, remAfter_succ, compAt, dayStr, List.append_assoc]

lemma calculate_actual_eq (s : Sprint) :
    calculate_actual_burndown s =
      (List.range (s.duration_days + 1).toNat).map (actualPoint s) := by
  unfold calculate_actual_burndown
  rw [actual_foldl_eq]
  simp

/-! ### Facts about the tie-to-even rounding -/

lemma rhe_floor_le (q : ℚ) : ⌊q⌋ ≤ rhe q := by
  unfold rhe
  split_ifs <;> omega

lemma rhe_le_floor_add_one (q : ℚ) : rhe q ≤ ⌊q⌋ + 1 := by
  unfold rhe
  split_ifs <;> omega

lemma rhe_mono {x y : ℚ} (h : x ≤ y) : rhe x ≤ rhe y := by
  rcases eq_or_lt_of_le (Int.floor_mono h) with heq | hlt
  · unfold rhe
    rw [← heq]
    have hf : x - ⌊x⌋ ≤ y - ⌊x⌋ := by linarith
    split_ifs <;> first | omega | linarith
  · calc rhe x ≤ ⌊x⌋ + 1 := rhe_le_floor_add_one x
    _ ≤ ⌊y⌋ := hlt
    _ ≤ rhe y := rhe_floor_le y

lemma rhe_intCast (n : ℤ) : rhe (n : ℚ) = n := by
  unfold rhe
  rw [Int.floor_intCast]
  norm_num

lemma pyRound1_mono {x y : ℚ} (h : x ≤ y) : pyRound1 x ≤ pyRound1 y := by
  unfold pyRound1
  have : rhe (10 * x) ≤ rhe (10 * y) := rhe_mono (by linarith)
  have hc : ((rhe (10 * x) : ℤ) : ℚ) ≤ ((rhe (10 * y) : ℤ) : ℚ) := by exact_mod_cast this
  linarith

lemma pyRound1_intCast (n : ℤ) : pyRound1 ((n : ℤ) : ℚ) = (n : ℚ) := by
  unfold pyRound1
  have : (10 : ℚ) * (n : ℚ) = ((10 * n : ℤ) : ℚ) := by push_cast; ring
  rw [this, rhe_intCast]
  push_cast
  ring

lemma pyRound1_zero : pyRound1 0 = 0 := by
  simpa using pyRound1_intCast 0

/-! ### Facts about the double-rounding model `fl` -/

lemma rhe_eq_of_floor_up {q : ℚ} {n : ℤ} (hfl : ⌊q⌋ = n) (h : 1/2 < q - n) : rhe q = n + 1 := by
  unfold rhe
  rw [hfl, if_neg (by linarith), if_pos h]

lemma intLog2_eq {q : ℚ} {e : ℤ} (h1 : (2 : ℚ) ^ e ≤ q) (h2 : q < (2 : ℚ) ^ (e + 1)) :
    Int.log 2 q = e := by
  have hq : 0 < q := lt_of_lt_of_le (by positivity) h1
  have hA : (2 : ℚ) ^ Int.log 2 q ≤ q := by
    have := Int.zpow_log_le_self (b := 2) (by norm_num) hq
    simpa using this
  have hB : q < (2 : ℚ) ^ (Int.log 2 q + 1) := by
    have := Int.lt_zpow_succ_log_self (b := 2) (by norm_num) q
    simpa using this
  have h3 : Int.log 2 q < e + 1 :=
    (zpow_lt_zpow_iff_right₀ (by norm_num : (1 : ℚ) < 2)).mp (lt_of_le_of_lt hA h2)
  have h4 : e < Int.log 2 q + 1 :=
    (zpow_lt_zpow_iff_right₀ (by norm_num : (1 : ℚ) < 2)).mp (lt_of_le_of_lt h1 hB)
  omega

lemma fl_pos_eq {q : ℚ} {e m : ℤ} (hq : 0 < q) (he : Int.log 2 q = e)
    (hm : rhe (q * (2 : ℚ) ^ (52 - e)) = m) :
    fl q = (m : ℚ) * (2 : ℚ) ^ (e - 52) := by
  unfold fl
  rw [if_neg (ne_of_gt hq), if_pos hq, he, hm]

lemma fl_zero : fl 0 = 0 := by
  unfold fl
  rw [if_pos rfl]

lemma fl_intCast_small (n : ℤ) (h0 : 0 < n) (hlt : n < 2 ^ 53) : fl (n : ℚ) = n := by
  have hq : (0 : ℚ) < (n : ℚ) := by exact_mod_cast h0
  have he52 : Int.log 2 ((n : ℤ) : ℚ) ≤ 52 := by
    by_contra hcon
    push_neg at hcon
    have h2 : (2 : ℚ) ^ (53 : ℤ) ≤ (2 : ℚ) ^ Int.log 2 ((n : ℤ) : ℚ) :=
      zpow_le_zpow_right₀ (by norm_num) (by omega)
    have h3 : (2 : ℚ) ^ Int.log 2 ((n : ℤ) : ℚ) ≤ ((n : ℤ) : ℚ) := by
      have := Int.zpow_log_le_self (b := 2) (by norm_num) hq
      simpa using this
    have h4 : ((n : ℤ) : ℚ) < (2 : ℚ) ^ (53 : ℤ) := by
      have hc : ((n : ℤ) : ℚ) < ((2 ^ 53 : ℤ) : ℚ) := by exact_mod_cast hlt
      calc ((n : ℤ) : ℚ) < ((2 ^ 53 : ℤ) : ℚ) := hc
      _ = (2 : ℚ) ^ (53 : ℤ) := by
        rw [show (53 : ℤ) = ((53 : ℕ) : ℤ) from rfl, zpow_natCast]
        push_cast
        ring
    linarith
  obtain ⟨k, hk⟩ : ∃ k : ℕ, 52 - Int.log 2 ((n : ℤ) : ℚ) = (k : ℤ) :=
    ⟨(52 - Int.log 2 ((n : ℤ) : ℚ)).toNat, by omega⟩
  have hrhe : rhe (((n : ℤ) : ℚ) * (2 : ℚ) ^ (52 - Int.log 2 ((n : ℤ) : ℚ))) = n * 2 ^ k := by
    rw [hk]
    have harg : ((n : ℤ) : ℚ) * (2 : ℚ) ^ ((k : ℕ) : ℤ) = ((n * 2 ^ k : ℤ) : ℚ) := by
      rw [zpow_natCast]
      push_cast
      ring
    rw [harg, rhe_intCast]
  rw [fl_pos_eq hq rfl hrhe]
  have hme : Int.log 2 ((n : ℤ) : ℚ) - 52 = -((k : ℕ) : ℤ) := by omega
  rw [hme, zpow_neg, zpow_natCast]
  push_cast
  rw [mul_assoc, mul_inv_cancel₀ (by positivity), mul_one]

lemma fl_margin_top : fl margin_top = margin_top := by
  rw [show margin_top = ((40 : ℤ) : ℚ) from by norm_num [margin_top]]
  exact fl_intCast_small 40 (by norm_num) (by norm_num)

lemma pointY_f_of_total_zero (s : Sprint) (h0 : s.total_points = 0) (r : ℚ) :
    pointY_f s r = margin_top := by
  unfold pointY_f y_scale_f
  rw [h0, if_neg (lt_irrefl (0 : ℤ)), mul_zero, fl_zero, add_zero, fl_margin_top]

/-! ### Concrete sprints used as witnesses and counterexamples -/

/-- The spec's worked example: 2025-01-01 to 2025-01-05, tasks of 3 and 2
points completed on 2025-01-02 and 2025-01-04. -/
def exampleSprint : Sprint :=
  { id := "s1", name := "Sprint 1", start_date := ⟨2025, 1, 1⟩, end_date := ⟨2025, 1, 5⟩,
    tasks := [⟨"A", "Task A", "done", 3, some "2025-01-02"⟩,
              ⟨"B", "Task B", "done", 2, some "2025-01-04"⟩] }

/-- A sprint with no tasks (total points 0). -/
def zeroTaskSprint : Sprint :=
  { id := "s0", name := "Empty", start_date := ⟨2025, 1, 1⟩, end_date := ⟨2025, 1, 5⟩ }

/-- A one-day sprint whose single 2-point task completes on the start
date. -/
def startDaySprint : Sprint :=
  { id := "s2", name := "Start Day", start_date := ⟨2025, 1, 1⟩, end_date := ⟨2025, 1, 1⟩,
    tasks := [⟨"T", "Task T", "done", 2, some "2025-01-01"⟩] }

/-- A sprint with 9 total points (y-tick step stays 1). -/
def ninePointSprint : Sprint :=
  { id := "s9", name := "Nine", start_date := ⟨2025, 1, 1⟩, end_date := ⟨2025, 1, 5⟩,
    tasks := [⟨"N", "Task N", "pending", 9, none⟩] }

/-- A sprint with 73 total points, whose vertical scale 300/73 is not
exactly representable as a double. -/
def seventyThreeSprint : Sprint :=
  { id := "s73", name := "SeventyThree", start_date := ⟨2025, 1, 1⟩, end_date := ⟨2025, 1, 5⟩,
    tasks := [⟨"S", "Task S", "pending", 73, none⟩] }

/-- A sprint whose end date precedes its start date. -/
def reversedSprint : Sprint :=
  { id := "s3", name := "Reversed", start_date := ⟨2025, 1, 5⟩, end_date := ⟨2025, 1, 1⟩,
    tasks := [⟨"R", "Task R", "done", 3, some "2025-01-03"⟩] }

/-- A raw sprint record whose end date precedes its start date and whose
single task has a negative story-point weight. -/
def invalidData : SprintData :=
  { id := "sprint-bad", name := "Bad Sprint", start_date := "2025-01-05",
    end_date := "2025-01-01",
    tasks := [{ id := "T1", title := "T", status := "done", story_points := -3 }] }

/-- The sprint `parse_sprint_yaml` builds from `invalidData`. -/
def invalidParsed : Sprint :=
  { id := "sprint-bad", name := "Bad Sprint", start_date := ⟨2025, 1, 5⟩,
    end_date := ⟨2025, 1, 1⟩,
    tasks := [{ id := "T1", title := "T", status := "done", story_points := -3 }] }

lemma example_ideal_eval :
    (calculate_ideal_burndown exampleSprint).map (·.remaining) = [5, 19/5, 5/2, 6/5, 0] := by
  have hd : exampleSprint.duration_days = 4 := by decide
  have ht : exampleSprint.total_points = 5 := by decide
  have hr : List.range ((4 : ℤ) + 1).toNat = [0, 1, 2, 3, 4] := by decide
  simp only [calculate_ideal_eq, hd, hr, List.map_cons, List.map_nil, List.map_map,
    Function.comp, idealPoint, idealRem, ht]
  norm_num [pyRound1, rhe, Int.even_iff]

lemma example_actual_eval :
    (calculate_actual_burndown exampleSprint).map (·.remaining) = [5, 2, 2, 0, 0] := by
  decide

lemma fl_scale_73 : fl (300 / 73 : ℚ) = 4626985918531332 / 2 ^ 50 := by
  have he : Int.log 2 (300 / 73 : ℚ) = 2 := by
    refine intLog2_eq ?_ ?_ <;> norm_num
  have hm : rhe ((300 / 73 : ℚ) * (2 : ℚ) ^ (52 - 2 : ℤ)) = 4626985918531332 := by
    have harg : (300 / 73 : ℚ) * (2 : ℚ) ^ (52 - 2 : ℤ) = 337769972052787200 / 73 := by
      rw [show (52 - 2 : ℤ) = ((50 : ℕ) : ℤ) from rfl, zpow_natCast]
      norm_num
    rw [harg, show (4626985918531332 : ℤ) = 4626985918531331 + 1 from rfl]
    apply rhe_eq_of_floor_up
    · rw [Int.floor_eq_iff]
      constructor <;> norm_num
    · norm_num
  rw [fl_pos_eq (by norm_num) he hm]
  rw [show (2 : ℤ) - 52 = -((50 : ℕ) : ℤ) from rfl, zpow_neg, zpow_natCast]
  norm_num

lemma fl_prod_73 : fl ((73 : ℚ) * (4626985918531332 / 2 ^ 50)) = 5277655813324801 / 2 ^ 44 := by
  have harg0 : (73 : ℚ) * (4626985918531332 / 2 ^ 50) = 337769972052787236 / 2 ^ 50 := by
    norm_num
  rw [harg0]
  have he : Int.log 2 (337769972052787236 / 2 ^ 50 : ℚ) = 8 := by
    refine intLog2_eq ?_ ?_ <;> norm_num
  have hm : rhe ((337769972052787236 / 2 ^ 50 : ℚ) * (2 : ℚ) ^ (52 - 8 : ℤ))
      = 5277655813324801 := by
    have harg : (337769972052787236 / 2 ^ 50 : ℚ) * (2 : ℚ) ^ (52 - 8 : ℤ)
        = 337769972052787236 / 64 := by
      rw [show (52 - 8 : ℤ) = ((44 : ℕ) : ℤ) from rfl, zpow_natCast]
      norm_num
    rw [harg, show (5277655813324801 : ℤ) = 5277655813324800 + 1 from rfl]
    apply rhe_eq_of_floor_up
    · rw [Int.floor_eq_iff]
      constructor <;> norm_num
    · norm_num
  rw [fl_pos_eq (by norm_num) he hm]
  rw [show (8 : ℤ) - 52 = -((44 : ℕ) : ℤ) from rfl, zpow_neg, zpow_natCast]
  norm_num

lemma fl_sum_73 : fl (margin_top + 5277655813324801 / 2 ^ 44 : ℚ) = 5981343255101441 / 2 ^ 44 := by
  have harg0 : (margin_top + 5277655813324801 / 2 ^ 44 : ℚ) = 5981343255101441 / 2 ^ 44 := by
    norm_num [margin_top]
  rw [harg0]
  have he : Int.log 2 (5981343255101441 / 2 ^ 44 : ℚ) = 8 := by
    refine intLog2_eq ?_ ?_ <;> norm_num
  have hm : rhe ((5981343255101441 / 2 ^ 44 : ℚ) * (2 : ℚ) ^ (52 - 8 : ℤ))
      = 5981343255101441 := by
    have harg : (5981343255101441 / 2 ^ 44 : ℚ) * (2 : ℚ) ^ (52 - 8 : ℤ)
        = ((5981343255101441 : ℤ) : ℚ) := by
      rw [show (52 - 8 : ℤ) = ((44 : ℕ) : ℤ) from rfl, zpow_natCast]
      norm_num
    rw [harg, rhe_intCast]
  rw [fl_pos_eq (by norm_num) he hm]
  rw [show (8 : ℤ) - 52 = -((44 : ℕ) : ℤ) from rfl, zpow_neg, zpow_natCast]
  norm_num

lemma pointY_f_seventyThree : pointY_f seventyThreeSprint 0 = 340 + 1 / 2 ^ 44 := by
  have ht : seventyThreeSprint.total_points = 73 := by decide
  have hys : y_scale_f seventyThreeSprint = 4626985918531332 / 2 ^ 50 := by
    unfold y_scale_f
    rw [ht, if_pos (by norm_num)]
    rw [show chart_height / ((73 : ℤ) : ℚ) = (300 / 73 : ℚ) from by
      norm_num [chart_height, height, margin_top, margin_bottom]]
    exact fl_scale_73
  unfold pointY_f
  rw [ht, hys, sub_zero]
  rw [show ((73 : ℤ) : ℚ) = (((73 : ℤ) : ℤ) : ℚ) from rfl]
  rw [fl_intCast_small 73 (by norm_num) (by norm_num)]
  rw [show (((73 : ℤ) : ℤ) : ℚ) = (73 : ℚ) from by norm_num]
  rw [fl_prod_73, fl_sum_73]
  norm_num [margin_top]

/-! ### The claims -/

/-- Claim C9: `progress_percent` is 0 when total points is 0 (in particular
for a sprint with zero tasks, where the division is unreachable), and
`completed / total * 100` otherwise. -/
theorem progress_percent_spec (s : Sprint) :
    (s.total_points = 0 → s.progress_percent = 0) ∧
    (s.total_points ≠ 0 →
      s.progress_percent = ((s.completed_points : ℚ) / (s.total_points : ℚ)) * 100) ∧
    (s.tasks = [] → s.progress_percent = 0) := by
  refine ⟨fun h => by simp [Sprint.progress_percent, h],
          fun h => by simp [Sprint.progress_percent, h],
          fun h => ?_⟩
  have h0 : s.total_points = 0 := by simp [Sprint.total_points, h]
  simp [Sprint.progress_percent, h0]

/-- Witness for `progress_percent_spec` at a zero-task sprint and at the
worked example. -/
theorem progress_percent_spec_witness :
    zeroTaskSprint.progress_percent = 0 ∧
    exampleSprint.progress_percent =
      ((exampleSprint.completed_points : ℚ) / (exampleSprint.total_points : ℚ)) * 100 :=
  ⟨(progress_percent_spec zeroTaskSprint).1 (by decide),
   (progress_percent_spec exampleSprint).2.1 (by decide)⟩

/-- Claim C10: when the end date is strictly before the start date
(negative duration), both series are empty. -/
theorem negative_duration_empty_series (s : Sprint)
    (h : dateToOrd s.end_date < dateToOrd s.start_date) :
    calculate_ideal_burndown s = [] ∧ calculate_actual_burndown s = [] := by
  have hd : s.duration_days < 0 := by
    simp only [Sprint.duration_days]
    omega
  have hn : (s.duration_days + 1).toNat = 0 := by omega
  rw [calculate_ideal_eq, calculate_actual_eq, hn]
  simp

/-- Witness for `negative_duration_empty_series` at a concrete reversed
sprint. -/
theorem negative_duration_empty_series_witness :
    calculate_ideal_burndown reversedSprint = [] ∧
    calculate_actual_burndown reversedSprint = [] :=
  negative_duration_empty_series reversedSprint (by decide)

/-- Claim C7 (amended): with the float semantics `pointY_f` of the chart's
y-coordinate, a data point with remaining = total points maps exactly to
y = top margin for every sprint (the multiplicand is exactly zero, so no
rounding occurs); and when total points is 0, every data point maps to the
top margin (the vertical scale is 0). -/
theorem pointY_f_top_edge (s : Sprint) :
    pointY_f s (s.total_points : ℚ) = margin_top ∧
    (s.total_points = 0 → ∀ r : ℚ, pointY_f s r = margin_top) := by
  constructor
  · unfold pointY_f
    rw [sub_self, fl_zero, zero_mul, fl_zero, add_zero, fl_margin_top]
  · intro h0 r
    exact pointY_f_of_total_zero s h0 r

/-- Witness for `pointY_f_top_edge` at the worked example and the zero-task
sprint. -/
theorem pointY_f_top_edge_witness :
    pointY_f exampleSprint (exampleSprint.total_points : ℚ) = margin_top ∧
    pointY_f zeroTaskSprint 0 = margin_top :=
  ⟨(pointY_f_top_edge exampleSprint).1, (pointY_f_top_edge zeroTaskSprint).2 (by decide) 0⟩

/-- Claim C7 counterexample: the remaining = 0 data point does not map
exactly to top margin + plot-area height.  A zero-point sprint maps it to
the top margin (the vertical scale is 0), and a 73-point sprint maps it one
double ulp above 340: the rounded product 73 × fl(300/73) is 300 + 2^-44,
not 300, so y = 340 + 2^-44. -/
theorem pointY_bottom_edge_not_exact :
    (zeroTaskSprint.total_points = 0 ∧
      pointY_f zeroTaskSprint 0 = margin_top ∧
      pointY_f zeroTaskSprint 0 ≠ margin_top + chart_height) ∧
    (seventyThreeSprint.total_points = 73 ∧
      pointY_f seventyThreeSprint 0 = 340 + 1 / 2 ^ 44 ∧
      pointY_f seventyThreeSprint 0 ≠ margin_top + chart_height) := by
  have hzero : pointY_f zeroTaskSprint 0 = margin_top :=
    pointY_f_of_total_zero zeroTaskSprint (by decide) 0
  refine ⟨⟨by decide, hzero, ?_⟩, by decide, pointY_f_seventyThree, ?_⟩
  · rw [hzero]
    norm_num [margin_top, chart_height, height, margin_bottom]
  · rw [pointY_f_seventyThree]
    norm_num [margin_top, chart_height, height, margin_bottom]

/-- Claim C4 counterexample: a task completed on the sprint's start date is
subtracted already at day 0, so the first actual point is 0, not the total
of 2. -/
theorem actual_day0_subtracts_start_completions :
    startDaySprint.total_points = 2 ∧
    (calculate_actual_burndown startDaySprint).map (·.remaining) = [0] := by
  exact ⟨by decide, by decide⟩

/-- Claim C4 (amended): the first actual point equals the total exactly
when no completed task's completion date is day 0's date string. -/
theorem actual_day0_total_when_no_start_completion (s : Sprint)
    (hdur : 0 ≤ s.duration_days) (htot : 0 ≤ s.total_points)
    (h : ∀ t ∈ s.tasks, ¬(t.is_complete = true ∧ t.completed_date = some (dayStr s 0))) :
    ((calculate_actual_burndown s).map (·.remaining)).head? = some (s.total_points : ℚ) := by
  rw [calculate_actual_eq, List.map_map]
  have hn : (s.duration_days + 1).toNat = s.duration_days.toNat + 1 := by omega
  rw [hn, List.range_succ_eq_map]
  simp only [List.map_cons, List.head?_cons, Function.comp]
  have hc : compAt s 0 = 0 := by
    unfold compAt completionsOn
    have hf : s.tasks.filter
        (fun t => t.is_complete && t.completed_date == some (dayStr s 0)) = [] := by
      rw [List.filter_eq_nil_iff]
      intro t ht
      simp only [Bool.and_eq_true, beq_iff_eq]
      exact h t ht
    rw [hf]
    simp
  have hr : remAfter s 1 = s.total_points := by
    rw [show (1 : ℕ) = 0 + 1 from rfl, remAfter_succ, hc]
    simp [remAfter]
  simp [actualPoint, hr, max_eq_right htot]

/-- Witness for `actual_day0_total_when_no_start_completion` at the worked
example sprint (no completion on the start date). -/
theorem actual_day0_witness :
    ((calculate_actual_burndown exampleSprint).map (·.remaining)).head? =
      some (exampleSprint.total_points : ℚ) :=
  actual_day0_total_when_no_start_completion exampleSprint (by decide) (by decide) (by decide)

/-- Claim C2 counterexample: on the spec's worked example, the recorded
ideal series is not [5, 3.75, 2.5, 1.25, 0] (the code rounds each value to
one decimal, ties to even: 3.75 becomes 3.8 and 1.25 becomes 1.2), and the
recorded actual series is not [5, 5, 2, 2, 0] (completions are subtracted
on the completion day itself, giving [5, 2, 2, 0, 0]). -/
theorem example_sprint_series_ne_spec :
    (calculate_ideal_burndown exampleSprint).map (·.remaining) ≠ [5, 15/4, 5/2, 5/4, 0] ∧
    (calculate_actual_burndown exampleSprint).map (·.remaining) ≠ [5, 5, 2, 2, 0] := by
  constructor
  · rw [example_ideal_eval]
    intro hcontra
    simp only [List.cons.injEq] at hcontra
    norm_num at hcontra
  · rw [example_actual_eval]
    intro hcontra
    simp only [List.cons.injEq] at hcontra
    norm_num at hcontra

/-- Claim C2 (amended): the series the code produces on the worked example:
ideal [5, 3.8, 2.5, 1.2, 0] (after one-decimal ties-to-even rounding) and
actual [5, 2, 2, 0, 0]. -/
theorem example_sprint_series_values :
    (calculate_ideal_burndown exampleSprint).map (·.remaining) = [5, 19/5, 5/2, 6/5, 0] ∧
    (calculate_actual_burndown exampleSprint).map (·.remaining) = [5, 2, 2, 0, 0] :=
  ⟨example_ideal_eval, example_actual_eval⟩

/-- Claim C1 counterexample: `parse_sprint_yaml` accepts a record whose end
date precedes its start date and whose task weight is negative, returning a
Sprint instead of failing. -/
theorem parse_accepts_invalid_sprint :
    parse_sprint_yaml invalidData = Except.ok invalidParsed ∧
    dateToOrd invalidParsed.end_date < dateToOrd invalidParsed.start_date ∧
    invalidParsed.tasks.map (·.story_points) = [-3] := by
  refine ⟨?_, by decide, by decide⟩
  rfl

/-- Claim C1 (amended): construction succeeds exactly when both date
strings parse; no other validation (end before start, non-positive
weights) is performed. -/
theorem parse_ok_iff_dates_parse (data : SprintData) :
    (parse_sprint_yaml data).isOk = true ↔
      ((parseDate data.start_date).isSome = true ∧ (parseDate data.end_date).isSome = true) := by
  unfold parse_sprint_yaml
  cases h1 : parseDate data.start_date <;> cases h2 : parseDate data.end_date <;>
    simp [Except.isOk, Except.toBool]

/-- Witness for `parse_ok_iff_dates_parse` at the invalid record. -/
theorem parse_ok_iff_dates_parse_witness :
    (parse_sprint_yaml invalidData).isOk = true :=
  (parse_ok_iff_dates_parse invalidData).mpr ⟨by decide, by decide⟩

lemma ideal_length_of_nonneg (s : Sprint) (h : 0 ≤ s.duration_days) :
    (calculate_ideal_burndown s).length = s.duration_days.toNat + 1 := by
  rw [calculate_ideal_eq, List.length_map, List.length_range]
  omega

/-- Claim C5: for positive duration the ideal series has duration + 1
points, is non-increasing, starts at the total and ends at 0; for duration
0 it is the single point 0.  (Total points are nonnegative for any sprint
satisfying the data-model invariant of positive task weights.) -/
theorem ideal_series_shape (s : Sprint) (h : 0 ≤ s.total_points) :
    (0 < s.duration_days →
      (calculate_ideal_burndown s).length = s.duration_days.toNat + 1 ∧
      ((calculate_ideal_burndown s).map (·.remaining)).Pairwise (· ≥ ·) ∧
      ((calculate_ideal_burndown s).map (·.remaining)).head? = some (s.total_points : ℚ) ∧
      ((calculate_ideal_burndown s).map (·.remaining)).getLast? = some 0) ∧
    (s.duration_days = 0 → (calculate_ideal_burndown s).map (·.remaining) = [0]) := by
  constructor
  · intro hd
    have hn : (s.duration_days + 1).toNat = s.duration_days.toNat + 1 := by omega
    have hdq : (0 : ℚ) < (s.duration_days : ℚ) := by exact_mod_cast hd
    have htq : (0 : ℚ) ≤ (s.total_points : ℚ) := by exact_mod_cast h
    have hmono : ∀ {i j : ℕ}, i ≤ j → pyRound1 (idealRem s j) ≤ pyRound1 (idealRem s i) := by
      intro i j hij
      apply pyRound1_mono
      unfold idealRem
      rw [if_pos hd, if_pos hd]
      have hij' : (i : ℚ) ≤ (j : ℚ) := by exact_mod_cast hij
      have hm : (s.total_points : ℚ) * (i : ℚ) ≤ (s.total_points : ℚ) * (j : ℚ) :=
        mul_le_mul_of_nonneg_left hij' htq
      have := (div_le_div_iff_of_pos_right hdq).mpr hm
      linarith
    refine ⟨ideal_length_of_nonneg s hd.le, ?_, ?_, ?_⟩
    · rw [calculate_ideal_eq, List.map_map]
      refine List.pairwise_map.mpr ?_
      exact (List.pairwise_lt_range _).imp (fun hij => hmono (le_of_lt hij))
    · rw [calculate_ideal_eq, List.map_map, hn, List.range_succ_eq_map]
      simp only [List.map_cons, List.head?_cons, Function.comp]
      show some (pyRound1 (idealRem s 0)) = _
      unfold idealRem
      rw [if_pos hd]
      norm_num
      exact pyRound1_intCast s.total_points
    · rw [calculate_ideal_eq, List.map_map, hn, List.range_succ, List.map_append,
        List.map_cons, List.map_nil, List.getLast?_concat]
      show some (pyRound1 (idealRem s s.duration_days.toNat)) = some 0
      have hcast : ((s.duration_days.toNat : ℕ) : ℚ) = (s.duration_days : ℚ) := by
        exact_mod_cast congrArg (Int.cast : ℤ → ℚ) (Int.toNat_of_nonneg hd.le)
      unfold idealRem
      rw [if_pos hd, hcast, mul_div_assoc, div_self (ne_of_gt hdq), mul_one, sub_self,
        pyRound1_zero]
  · intro hd
    have hn : (s.duration_days + 1).toNat = 1 := by omega
    have hr1 : List.range 1 = [0] := rfl
    rw [calculate_ideal_eq, hn, hr1]
    simp [idealPoint, idealRem, hd, pyRound1_zero]

/-- Witness for `ideal_series_shape`: positive-duration branch at the
worked example, zero-duration branch at the one-day sprint. -/
theorem ideal_series_shape_witness :
    ((calculate_ideal_burndown exampleSprint).map (·.remaining)).Pairwise (· ≥ ·) ∧
    (calculate_ideal_burndown startDaySprint).map (·.remaining) = [0] :=
  ⟨((ideal_series_shape exampleSprint (by decide)).1 (by decide)).2.1,
   (ideal_series_shape startDaySprint (by decide)).2 (by decide)⟩

lemma completionsOn_nonneg (tasks : List Task) (h : ∀ t ∈ tasks, 0 ≤ t.story_points)
    (d : String) : 0 ≤ completionsOn tasks d := by
  unfold completionsOn
  apply List.sum_nonneg
  intro x hx
  obtain ⟨t, htmem, rfl⟩ := List.mem_map.mp hx
  exact h t (List.mem_of_mem_filter htmem)

lemma remAfter_antitone (s : Sprint) (hc : ∀ d, 0 ≤ compAt s d) {k l : ℕ} (hkl : k ≤ l) :
    remAfter s l ≤ remAfter s k := by
  induction l, hkl using Nat.le_induction with
  | base => exact le_rfl
  | succ m hm ih =>
    calc remAfter s (m + 1) = remAfter s m - compAt s m := remAfter_succ s m
    _ ≤ remAfter s m := by linarith [hc m]
    _ ≤ remAfter s k := ih

/-- Claim C6: the actual series is monotonically non-increasing and every
recorded remaining value is at least 0, for every distribution of
completion dates (weights positive per the data-model invariant). -/
theorem actual_series_antitone_nonneg (s : Sprint)
    (h : ∀ t ∈ s.tasks, 0 < t.story_points) :
    ((calculate_actual_burndown s).map (·.remaining)).Pairwise (· ≥ ·) ∧
    (∀ r ∈ (calculate_actual_burndown s).map (·.remaining), (0 : ℚ) ≤ r) := by
  have hc : ∀ d, 0 ≤ compAt s d :=
    fun d => completionsOn_nonneg s.tasks (fun t ht => (h t ht).le) _
  constructor
  · rw [calculate_actual_eq, List.map_map]
    refine List.pairwise_map.mpr ?_
    refine (List.pairwise_lt_range _).imp (fun hij => ?_)
    show ((max 0 (remAfter s _) : ℤ) : ℚ) ≥ ((max 0 (remAfter s _) : ℤ) : ℚ)
    have := remAfter_antitone s hc (Nat.succ_le_succ hij.le)
    exact_mod_cast max_le_max (le_refl (0 : ℤ)) this
  · intro r hr
    rw [calculate_actual_eq, List.map_map] at hr
    obtain ⟨d, _, rfl⟩ := List.mem_map.mp hr
    show (0 : ℚ) ≤ ((max 0 (remAfter s (d + 1)) : ℤ) : ℚ)
    exact_mod_cast le_max_left 0 (remAfter s (d + 1))

/-- Witness for `actual_series_antitone_nonneg` at the worked example. -/
theorem actual_series_antitone_nonneg_witness :
    ((calculate_actual_burndown exampleSprint).map (·.remaining)).Pairwise (· ≥ ·) :=
  (actual_series_antitone_nonneg exampleSprint (by decide)).1

/-- Claim C3 (amended): the y-axis ticks are exactly the multiples of
`step = max(1, total // 5)` from 0 up to the total inclusive; their number
is at most 10 (not 6: totals between 6 and 24 can produce more than 6). -/
theorem yticks_multiples_and_bound (s : Sprint) (h : 0 ≤ s.total_points) :
    (∀ z : ℤ, z ∈ ytick_positions s ↔
      ytick_step s ∣ z ∧ 0 ≤ z ∧ z ≤ s.total_points) ∧
    (ytick_positions s).length ≤ 10 := by
  obtain ⟨n, hn⟩ : ∃ n : ℕ, s.total_points = (n : ℤ) :=
    ⟨s.total_points.toNat, (Int.toNat_of_nonneg h).symm⟩
  obtain ⟨st, hstdef⟩ : ∃ st : ℕ, max 1 (n / 5) = st := ⟨_, rfl⟩
  have hstpos : 0 < st := by omega
  have hstep : ytick_step s = (st : ℤ) := by
    rw [ytick_step, hn]
    omega
  have hlist : ytick_positions s
      = (List.range (n / st + 1)).map (fun i => ((st * i : ℕ) : ℤ)) := by
    unfold ytick_positions pyRangeStep
    rw [hstep, hn]
    have h1 : ((n : ℤ) + 1 - 0 + (st : ℤ) - 1) = ((n + st : ℕ) : ℤ) := by push_cast; ring
    rw [h1, ← Int.natCast_div, Int.toNat_natCast, Nat.add_div_right n hstpos]
    refine List.map_congr_left fun i _ => ?_
    push_cast
    ring
  constructor
  · intro z
    rw [hlist, hstep]
    simp only [List.mem_map, List.mem_range]
    constructor
    · rintro ⟨i, hi, rfl⟩
      have hile : i ≤ n / st := by omega
      have hmul : st * i ≤ n := by
        rw [Nat.mul_comm]
        exact (Nat.le_div_iff_mul_le hstpos).mp hile
      refine ⟨⟨(i : ℤ), by push_cast; ring⟩, by exact_mod_cast Nat.zero_le _, ?_⟩
      rw [hn]
      exact_mod_cast hmul
    · rintro ⟨⟨c, hzc⟩, h0, hle⟩
      have hstz : (0 : ℤ) < (st : ℤ) := by exact_mod_cast hstpos
      have hc0 : 0 ≤ c := by
        by_contra hneg
        push_neg at hneg
        have hzneg : z < 0 := hzc ▸ mul_neg_of_pos_of_neg hstz hneg
        linarith
      obtain ⟨i, rfl⟩ : ∃ i : ℕ, c = (i : ℤ) := ⟨c.toNat, (Int.toNat_of_nonneg hc0).symm⟩
      have hmul : st * i ≤ n := by
        have hcast : ((st * i : ℕ) : ℤ) ≤ (n : ℤ) := by
          rw [hn] at hle
          calc ((st * i : ℕ) : ℤ) = (st : ℤ) * (i : ℤ) := by push_cast; ring
          _ = z := hzc.symm
          _ ≤ (n : ℤ) := hle
        exact_mod_cast hcast
      refine ⟨i, ?_, ?_⟩
      · have : i ≤ n / st :=
          (Nat.le_div_iff_mul_le hstpos).mpr (by rw [Nat.mul_comm]; exact hmul)
        omega
      · rw [hzc]
        push_cast
        ring
  · rw [hlist, List.length_map, List.length_range]
    rcases le_or_lt n 9 with h9 | h9
    · have := Nat.div_le_self n st
      omega
    · have hst5 : st = n / 5 := by omega
      have h8 : n / st < 8 := by
        rw [hst5, Nat.div_lt_iff_lt_mul (by omega)]
        omega
      omega

/-- Witness for `yticks_multiples_and_bound` at the worked example. -/
theorem yticks_multiples_and_bound_witness :
    (4 ∈ ytick_positions exampleSprint ↔
      ytick_step exampleSprint ∣ 4 ∧ (0 : ℤ) ≤ 4 ∧ (4 : ℤ) ≤ exampleSprint.total_points) ∧
    (ytick_positions exampleSprint).length ≤ 10 :=
  ⟨(yticks_multiples_and_bound exampleSprint (by decide)).1 4,
   (yticks_multiples_and_bound exampleSprint (by decide)).2⟩

/-- Claim C3 counterexample: a sprint of 9 total points gets step 1 and
ten y-axis ticks, exceeding the claimed bound of 6. -/
theorem yticks_nine_points_exceed_six :
    ninePointSprint.total_points = 9 ∧
    ytick_positions ninePointSprint = [0, 1, 2, 3, 4, 5, 6, 7, 8, 9] ∧
    ¬((ytick_positions ninePointSprint).length ≤ 6) := by
  exact ⟨by decide, by decide, by decide⟩

lemma append_ne_empty (a b : String) (ha : a.length ≠ 0) : a ++ b ≠ "" := by
  intro hcontra
  have hlen := congrArg String.length hcontra
  rw [String.length_append] at hlen
  have h0 : ("" : String).length = 0 := rfl
  omega

/-- Claim C8: the actual polyline is built from exactly the actual points
dated on or before "today", its SVG element is omitted exactly when no
point qualifies, and the ideal polyline is built from the full ideal
series of duration + 1 points. -/
theorem svg_path_truncation (s : Sprint) (today : String) (h : 0 ≤ s.duration_days) :
    (∀ p, p ∈ actual_filtered (calculate_actual_burndown s) today ↔
      (p ∈ calculate_actual_burndown s ∧ p.date ≤ today)) ∧
    (actual_path_element s (calculate_actual_burndown s) today = "" ↔
      ∀ p ∈ calculate_actual_burndown s, ¬(p.date ≤ today)) ∧
    ideal_path s (calculate_ideal_burndown s) =
      "M " ++ " L ".intercalate ((calculate_ideal_burndown s).map (coordStr s)) ∧
    (calculate_ideal_burndown s).length = s.duration_days.toNat + 1 := by
  refine ⟨?_, ?_, rfl, ideal_length_of_nonneg s h⟩
  · intro p
    simp [actual_filtered, List.mem_filter]
  · by_cases haf : actual_filtered (calculate_actual_burndown s) today = []
    · have hempty : actual_path s (calculate_actual_burndown s) today = "" := by
        simp [actual_path, haf]
      have helem : actual_path_element s (calculate_actual_burndown s) today = "" := by
        simp [actual_path_element, hempty]
      rw [helem]
      refine iff_of_true rfl ?_
      intro p hp hle
      have hmem : p ∈ actual_filtered (calculate_actual_burndown s) today :=
        List.mem_filter.mpr ⟨hp, by simp only [decide_eq_true_eq]; exact hle⟩
      rw [haf] at hmem
      exact absurd hmem (List.not_mem_nil p)
    · have hne : actual_path s (calculate_actual_burndown s) today ≠ "" := by
        unfold actual_path linePath
        rw [if_neg (by simpa [List.isEmpty_iff] using haf)]
        exact append_ne_empty "M " _ (by decide)
      refine iff_of_false ?_ ?_
      · unfold actual_path_element
        rw [if_neg hne]
        exact append_ne_empty "<path d=\"" _ (by decide)
      · intro hall
        apply haf
        simp only [actual_filtered, List.filter_eq_nil_iff]
        intro p hp
        simp only [decide_eq_true_eq]
        exact hall p hp

/-- Witness for `svg_path_truncation` at the worked example with a fixed
reference date in mid-sprint. -/
theorem svg_path_truncation_witness :
    (actual_path_element exampleSprint (calculate_actual_burndown exampleSprint)
        "2025-01-03" = "" ↔
      ∀ p ∈ calculate_actual_burndown exampleSprint, ¬(p.date ≤ "2025-01-03")) ∧
    (calculate_ideal_burndown exampleSprint).length =
      exampleSprint.duration_days.toNat + 1 :=
  ⟨(svg_path_truncation exampleSprint "2025-01-03" (by decide)).2.1,
   (svg_path_truncation exampleSprint "2025-01-03" (by decide)).2.2.2⟩

end Burndown
